import Mathlib

/-
Verification of the hcp-asl pipeline against its specification.

The development shallowly embeds the parts of the code that the
properties below speak about:

* the JSON "ledger" of important file paths
  (`hcpasl/m0_mt_correction.py`: `load_json`, `update_json`),
* the bbregister matrix import with its one rounding retry
  (`hcpasl/m0_mt_correction.py`: `generate_asl2struct`),
* the five-stage fabber fit driver
  (`hcpasl/analysis_on_surface.py`: `do_basil`),
* the oxford_asl output-path construction
  (`hcpasl/asl_perfusion.py`: `run_oxford_asl`),
* the existence-guarded recomputation sites of the two preparation
  scripts (`scripts/distcorr_warps.py`, `scripts/prepare_t1asl_space.py`),
* the transform-chain algebra used through the `regtricks` library
  (modelled from the specification, since that library is outside the
  repository sources).

Python dictionaries are embedded as ordered association lists, the
filesystem as a partial map from paths to stored dictionaries, and
external process invocations as events in an explicit trace.
-/

namespace HcpAsl

/-! ## Ledger: Python dicts as ordered association lists

`hcpasl/m0_mt_correction.py` keeps a per-subject JSON dictionary of
file paths.  A Python `dict` is an insertion-ordered association list
with unique keys; `d[k] = v` replaces the value in place when `k` is
present and appends otherwise. -/

/-- A Python dictionary of string keys and string values, as the
ordered list of its entries. -/
abbrev Dict := List (String × String)

/-- First-match lookup, `d[k]` / `d.get(k)`. -/
def Dict.lookup : Dict → String → Option String
  | [], _ => none
  | (k', v') :: rest, k => if k' = k then some v' else Dict.lookup rest k

/-- The keys of a dictionary, in order. -/
def Dict.keys (d : Dict) : List String := d.map Prod.fst

/-- A real Python dict never holds a key twice. -/
abbrev Dict.WF (d : Dict) : Prop := (Dict.keys d).Nodup

/-- `d[k] = v`: replace in place if the key is present, else append. -/
def updateEntry : Dict → String → String → Dict
  | [], k, v => [(k, v)]
  | (k', v') :: rest, k, v =>
      if k' = k then (k', v) :: rest else (k', v') :: updateEntry rest k v

/-- `old.update(new)`: assign the entries of `new` left to right. -/
def dictUpdate (old new : Dict) : Dict :=
  new.foldl (fun d kv => updateEntry d kv.1 kv.2) old

/-- The value a single `update` batch assigns to `k` (its last entry
for `k`), if any. -/
def batchGet (new : Dict) (k : String) : Option String :=
  Dict.lookup new.reverse k

/-- Option choice, first operand preferred. -/
def orElseO (a b : Option String) : Option String :=
  match a with
  | some v => some v
  | none => b

/-- `json.dump(..., sort_keys=True)` writes the entries sorted by key. -/
def sortByKey (d : Dict) : Dict :=
  d.mergeSort (fun a b => decide (a.1 ≤ b.1))

/-- The filesystem as seen by the ledger: which serialized dictionary,
if any, is stored at each path. -/
abbrev FS := String → Option Dict

/-- Writing a file: the store afterwards. -/
def writeFS (fs : FS) (path : String) (content : Dict) : FS :=
  fun p => if p = path then some content else fs p

/-- `subject_dir / 'ASL/ASL.json'`, the ledger location used by
`load_json`. -/
def jsonPath (subject_dir : String) : String :=
  subject_dir ++ "/ASL/ASL.json"

/-- `load_json` (m0_mt_correction.py, lines 75-98): read the ledger,
failing with an instruction to run `initial_processing()` first when
the file does not exist. -/
def load_json (subject_dir : String) (fs : FS) : Except String Dict :=
  match fs (jsonPath subject_dir) with
  | some json_dict => .ok json_dict
  | none => .error ("File " ++ jsonPath subject_dir ++ " does not exist." ++
      "Please run initial_processing() first.")

/-- `update_json` (m0_mt_correction.py, lines 100-119): merge
`new_dict` into `old_dict`, then rewrite the whole merged mapping,
sorted by key, to the path stored under `old_dict['json_name']`
(a missing `json_name` key is a Python `KeyError`). -/
def update_json (new_dict old_dict : Dict) (fs : FS) :
    Except String (Dict × FS) :=
  let merged := dictUpdate old_dict new_dict
  match Dict.lookup merged "json_name" with
  | some path => .ok (merged, writeFS fs path (sortByKey merged))
  | none => .error "KeyError: json_name"

/-- A sequence of `update_json` calls threading the dictionary and the
filesystem, aborting at the first error. -/
def runPuts : Dict → FS → List Dict → Except String (Dict × FS)
  | old, fs, [] => .ok (old, fs)
  | old, fs, b :: rest =>
      match update_json b old fs with
      | .ok (d, fs1) => runPuts d fs1 rest
      | .error e => .error e

/-- The value the whole sequence of batches assigns to `k`: later
batches take priority, and within a batch the last entry wins. -/
def putsGet : List Dict → String → Option String
  | [], _ => none
  | b :: rest, k => orElseO (putsGet rest k) (batchGet b k)

/-! ### Association-list lemmas -/

theorem lookup_updateEntry (d : Dict) (k v k' : String) :
    Dict.lookup (updateEntry d k v) k' =
      if k = k' then some v else Dict.lookup d k' := by
  induction d with
  | nil =>
      by_cases h : k = k' <;> simp [updateEntry, Dict.lookup, h]
  | cons hd tl ih =>
      obtain ⟨k0, v0⟩ := hd
      by_cases h0 : k0 = k
      · subst h0
        by_cases h : k0 = k' <;> simp [updateEntry, Dict.lookup, h]
      · by_cases h : k0 = k'
        · subst h
          have : ¬ k = k0 := fun hh => h0 hh.symm
          simp [updateEntry, Dict.lookup, h0, this]
        · simp [updateEntry, Dict.lookup, h0, h, ih]

theorem lookup_eq_none_iff (d : Dict) (k : String) :
    Dict.lookup d k = none ↔ k ∉ Dict.keys d := by
  induction d with
  | nil => simp [Dict.lookup, Dict.keys]
  | cons hd tl ih =>
      obtain ⟨k0, v0⟩ := hd
      by_cases h : k0 = k
      · subst h
        simp [Dict.lookup, Dict.keys]
      · have : ¬ k = k0 := fun hh => h hh.symm
        simp [Dict.lookup, Dict.keys, h, this, ih]

theorem keys_updateEntry_of_mem (d : Dict) (k v : String)
    (h : k ∈ Dict.keys d) :
    Dict.keys (updateEntry d k v) = Dict.keys d := by
  induction d with
  | nil => simp [Dict.keys] at h
  | cons hd tl ih =>
      obtain ⟨k0, v0⟩ := hd
      by_cases h0 : k0 = k
      · simp [updateEntry, h0, Dict.keys]
      · have hm : k ∈ Dict.keys tl := by
          rcases List.mem_cons.mp h with h1 | h1
          · exact absurd h1.symm h0
          · exact h1
        have hgoal := ih hm
        simp only [updateEntry, h0, if_false, Dict.keys, List.map_cons]
        rw [show List.map Prod.fst (updateEntry tl k v) =
          Dict.keys (updateEntry tl k v) from rfl, hgoal]
        rfl

theorem keys_updateEntry_of_not_mem (d : Dict) (k v : String)
    (h : k ∉ Dict.keys d) :
    Dict.keys (updateEntry d k v) = Dict.keys d ++ [k] := by
  induction d with
  | nil => simp [updateEntry, Dict.keys]
  | cons hd tl ih =>
      obtain ⟨k0, v0⟩ := hd
      have h0 : ¬ k0 = k := by
        intro hh
        exact h (by rw [hh]; exact List.mem_cons_self _ _)
      have htl : k ∉ Dict.keys tl := by
        intro hh
        exact h (List.mem_cons_of_mem _ hh)
      have hgoal := ih htl
      simp only [updateEntry, h0, if_false, Dict.keys, List.map_cons]
      rw [show List.map Prod.fst (updateEntry tl k v) =
        Dict.keys (updateEntry tl k v) from rfl, hgoal]
      rfl

theorem WF_updateEntry (d : Dict) (k v : String) (h : Dict.WF d) :
    Dict.WF (updateEntry d k v) := by
  by_cases hm : k ∈ Dict.keys d
  · unfold Dict.WF
    rw [keys_updateEntry_of_mem d k v hm]
    exact h
  · unfold Dict.WF
    rw [keys_updateEntry_of_not_mem d k v hm]
    simpa [List.nodup_append] using ⟨h, hm⟩

theorem WF_dictUpdate (old new : Dict) (h : Dict.WF old) :
    Dict.WF (dictUpdate old new) := by
  induction new generalizing old with
  | nil => simpa [dictUpdate] using h
  | cons b rest ih =>
      have : dictUpdate old (b :: rest) =
          dictUpdate (updateEntry old b.1 b.2) rest := rfl
      rw [this]
      exact ih _ (WF_updateEntry _ _ _ h)

theorem lookup_append (d1 d2 : Dict) (k : String) :
    Dict.lookup (d1 ++ d2) k =
      orElseO (Dict.lookup d1 k) (Dict.lookup d2 k) := by
  induction d1 with
  | nil => simp [Dict.lookup, orElseO]
  | cons hd tl ih =>
      obtain ⟨k0, v0⟩ := hd
      by_cases h : k0 = k <;> simp [Dict.lookup, h, orElseO, ih]

theorem orElseO_assoc (a b c : Option String) :
    orElseO (orElseO a b) c = orElseO a (orElseO b c) := by
  cases a <;> simp [orElseO]

theorem batchGet_cons (k0 v0 : String) (rest : Dict) (k : String) :
    batchGet ((k0, v0) :: rest) k =
      orElseO (batchGet rest k) (if k0 = k then some v0 else none) := by
  unfold batchGet
  rw [List.reverse_cons, lookup_append]
  by_cases h : k0 = k <;> simp [Dict.lookup, h]

theorem lookup_dictUpdate (old new : Dict) (k : String) :
    Dict.lookup (dictUpdate old new) k =
      orElseO (batchGet new k) (Dict.lookup old k) := by
  induction new generalizing old with
  | nil => simp [dictUpdate, batchGet, Dict.lookup, orElseO]
  | cons b rest ih =>
      obtain ⟨k0, v0⟩ := b
      have hstep : dictUpdate old ((k0, v0) :: rest) =
          dictUpdate (updateEntry old k0 v0) rest := rfl
      rw [hstep, ih, batchGet_cons, orElseO_assoc]
      congr 1
      rw [lookup_updateEntry]
      by_cases h : k0 = k <;> simp [h, orElseO]

theorem lookup_foldl_dictUpdate (puts : List Dict) (old : Dict) (k : String) :
    Dict.lookup (puts.foldl dictUpdate old) k =
      orElseO (putsGet puts k) (Dict.lookup old k) := by
  induction puts generalizing old with
  | nil => simp [putsGet, orElseO]
  | cons b rest ih =>
      have : (b :: rest).foldl dictUpdate old =
          rest.foldl dictUpdate (dictUpdate old b) := rfl
      rw [this, ih, lookup_dictUpdate, putsGet, ← orElseO_assoc]

theorem WF_foldl_dictUpdate (puts : List Dict) (old : Dict)
    (h : Dict.WF old) : Dict.WF (puts.foldl dictUpdate old) := by
  induction puts generalizing old with
  | nil => exact h
  | cons b rest ih => exact ih _ (WF_dictUpdate _ _ h)

theorem lookup_eq_some_of_mem (d : Dict) (k v : String) (hwf : Dict.WF d)
    (hm : (k, v) ∈ d) : Dict.lookup d k = some v := by
  induction d with
  | nil => simp at hm
  | cons hd tl ih =>
      obtain ⟨k0, v0⟩ := hd
      have hwf2 : k0 ∉ Dict.keys tl ∧ (Dict.keys tl).Nodup :=
        List.nodup_cons.mp hwf
      rcases List.mem_cons.mp hm with h1 | h1
      · have hk : k = k0 := congrArg Prod.fst h1
        have hv : v = v0 := congrArg Prod.snd h1
        subst hk
        rw [show Dict.lookup ((k, v0) :: tl) k =
          if k = k then some v0 else Dict.lookup tl k from rfl]
        simp [hv]
      · have hk0 : ¬ k0 = k := by
          intro hh
          subst hh
          exact hwf2.1 (List.mem_map_of_mem Prod.fst h1)
        rw [show Dict.lookup ((k0, v0) :: tl) k =
          if k0 = k then some v0 else Dict.lookup tl k from rfl, if_neg hk0]
        exact ih hwf2.2 h1

theorem mem_of_lookup_eq_some (d : Dict) (k v : String)
    (h : Dict.lookup d k = some v) : (k, v) ∈ d := by
  induction d with
  | nil => simp [Dict.lookup] at h
  | cons hd tl ih =>
      obtain ⟨k0, v0⟩ := hd
      by_cases h0 : k0 = k
      · subst h0
        simp [Dict.lookup] at h
        simp [h]
      · simp [Dict.lookup, h0] at h
        exact List.mem_cons_of_mem _ (ih h)

theorem sortByKey_perm (d : Dict) : (sortByKey d).Perm d :=
  List.mergeSort_perm d _

theorem WF_sortByKey (d : Dict) (h : Dict.WF d) : Dict.WF (sortByKey d) := by
  unfold Dict.WF Dict.keys at h ⊢
  exact ((sortByKey_perm d).map Prod.fst).nodup_iff.mpr h

theorem lookup_sortByKey (d : Dict) (k : String) (hwf : Dict.WF d) :
    Dict.lookup (sortByKey d) k = Dict.lookup d k := by
  cases h : Dict.lookup d k with
  | some v =>
      exact lookup_eq_some_of_mem _ _ _ (WF_sortByKey d hwf)
        ((sortByKey_perm d).mem_iff.mpr (mem_of_lookup_eq_some _ _ _ h))
  | none =>
      rw [lookup_eq_none_iff] at h ⊢
      intro hm
      exact h (((sortByKey_perm d).map Prod.fst).mem_iff.mp hm)

theorem sortByKey_sorted (d : Dict) :
    List.Pairwise (fun a b : String × String => a.1 ≤ b.1) (sortByKey d) := by
  have h := @List.sorted_mergeSort (String × String)
    (fun a b => decide (a.1 ≤ b.1))
    (fun a b c hab hbc => by
      simp only [decide_eq_true_eq] at hab hbc ⊢
      exact le_trans hab hbc)
    (fun a b => by
      simp only [Bool.or_eq_true, decide_eq_true_eq]
      exact le_total a.1 b.1)
    d
  exact h.imp (by simp only [decide_eq_true_eq]; exact fun h => h)

theorem runPuts_spec (jp : String) (puts : List Dict) :
    ∀ (old : Dict) (fs : FS),
    Dict.lookup old "json_name" = some jp →
    (∀ b ∈ puts, batchGet b "json_name" = none) →
    ∃ fsF, runPuts old fs puts = .ok (puts.foldl dictUpdate old, fsF) ∧
      ((puts = [] ∧ fsF = fs) ∨
        fsF jp = some (sortByKey (puts.foldl dictUpdate old))) := by
  induction puts with
  | nil =>
      intro old fs hj hb
      exact ⟨fs, rfl, Or.inl ⟨rfl, rfl⟩⟩
  | cons b rest ih =>
      intro old fs hj hb
      have hjb : batchGet b "json_name" = none := hb b (List.mem_cons_self _ _)
      have hj1 : Dict.lookup (dictUpdate old b) "json_name" = some jp := by
        rw [lookup_dictUpdate, hjb, hj]
        rfl
      have hstep : update_json b old fs =
          .ok (dictUpdate old b,
            writeFS fs jp (sortByKey (dictUpdate old b))) := by
        simp only [update_json, hj1]
      obtain ⟨fsF, hrun, hdisj⟩ := ih (dictUpdate old b)
        (writeFS fs jp (sortByKey (dictUpdate old b))) hj1
        (fun b2 hb2 => hb b2 (List.mem_cons_of_mem _ hb2))
      refine ⟨fsF, ?_, ?_⟩
      · rw [show runPuts old fs (b :: rest) =
          (match update_json b old fs with
            | .ok (d, fs1) => runPuts d fs1 rest
            | .error e => .error e) from rfl, hstep]
        exact hrun
      · rcases hdisj with ⟨hrest, hfsF⟩ | hfsF
        · subst hrest
          subst hfsF
          right
          simp [writeFS, dictUpdate]
        · right
          exact hfsF

/-- **C4**: a sequence of ledger puts (`update_json`) on a subject,
followed by a fresh-process load (`load_json`), yields a mapping that
contains every previously put key with the value most recently put for
it; `putsGet` assigns each key the value of its last write, so putting
the same key twice leaves the second value. -/
theorem C4_ledger_put_load_roundtrip (subject : String) (old : Dict)
    (fs : FS) (puts : List Dict) (hwf : Dict.WF old)
    (hj : Dict.lookup old "json_name" = some (jsonPath subject))
    (hb : ∀ b ∈ puts, batchGet b "json_name" = none)
    (hne : puts ≠ []) :
    ∃ fsF, runPuts old fs puts = .ok (puts.foldl dictUpdate old, fsF) ∧
      load_json subject fsF = .ok (sortByKey (puts.foldl dictUpdate old)) ∧
      ∀ k v, putsGet puts k = some v →
        Dict.lookup (sortByKey (puts.foldl dictUpdate old)) k = some v := by
  obtain ⟨fsF, hrun, hdisj⟩ := runPuts_spec (jsonPath subject) puts old fs hj hb
  rcases hdisj with ⟨h1, _⟩ | hfsF
  · exact absurd h1 hne
  refine ⟨fsF, hrun, ?_, ?_⟩
  · simp only [load_json, hfsF]
  · intro k v hk
    rw [lookup_sortByKey _ _ (WF_foldl_dictUpdate puts old hwf),
      lookup_foldl_dictUpdate, hk]
    rfl

/-- The ledger dictionary of a freshly initialised subject `sub1`. -/
def old0 : Dict := [("json_name", "sub1/ASL/ASL.json")]

/-- An empty filesystem. -/
def fs0 : FS := fun _ => none

/-- Two put batches writing the same key with different values. -/
def puts0 : List Dict := [[("beta_perf", "p1")], [("beta_perf", "p2")]]

/-- Witness for C4: two puts of `beta_perf`, the second value wins. -/
theorem C4_ledger_put_load_roundtrip_witness :
    (∃ fsF, runPuts old0 fs0 puts0 = .ok (puts0.foldl dictUpdate old0, fsF) ∧
      load_json "sub1" fsF = .ok (sortByKey (puts0.foldl dictUpdate old0)) ∧
      ∀ k v, putsGet puts0 k = some v →
        Dict.lookup (sortByKey (puts0.foldl dictUpdate old0)) k = some v) ∧
    Dict.lookup (sortByKey (puts0.foldl dictUpdate old0)) "beta_perf" =
      some "p2" := by
  have h := C4_ledger_put_load_roundtrip "sub1" old0 fs0 puts0
    (by decide) (by rfl) (by decide) (by decide)
  refine ⟨h, ?_⟩
  obtain ⟨fsF, h1, h2, h3⟩ := h
  exact h3 "beta_perf" "p2" (by decide)

/-- **C5**: `update_json` merges the new entries into the dictionary
and immediately writes the entire merged mapping (a permutation of it
sorted by key, not only the delta) to the path the ledger itself
stores under `json_name`; all other paths are untouched. -/
theorem C5_update_json_writes_full_sorted (new old : Dict) (fs : FS)
    (path : String)
    (hj : Dict.lookup (dictUpdate old new) "json_name" = some path) :
    update_json new old fs =
      .ok (dictUpdate old new,
        writeFS fs path (sortByKey (dictUpdate old new))) ∧
    writeFS fs path (sortByKey (dictUpdate old new)) path =
      some (sortByKey (dictUpdate old new)) ∧
    (∀ p, p ≠ path →
      writeFS fs path (sortByKey (dictUpdate old new)) p = fs p) ∧
    (sortByKey (dictUpdate old new)).Perm (dictUpdate old new) ∧
    List.Pairwise (fun a b : String × String => a.1 ≤ b.1)
      (sortByKey (dictUpdate old new)) ∧
    (∀ k, Dict.lookup (dictUpdate old new) k =
      orElseO (batchGet new k) (Dict.lookup old k)) := by
  refine ⟨?_, by simp [writeFS], fun p hp => by simp [writeFS, hp],
    sortByKey_perm _, sortByKey_sorted _,
    fun k => lookup_dictUpdate old new k⟩
  simp only [update_json, hj]

/-- A put batch used in the C5 witness. -/
def new0 : Dict := [("calib0_corr", "c0")]

/-- Witness for C5 at a concrete ledger and batch. -/
theorem C5_update_json_writes_full_sorted_witness :
    update_json new0 old0 fs0 =
      .ok (dictUpdate old0 new0,
        writeFS fs0 "sub1/ASL/ASL.json" (sortByKey (dictUpdate old0 new0))) ∧
    writeFS fs0 "sub1/ASL/ASL.json" (sortByKey (dictUpdate old0 new0))
        "sub1/ASL/ASL.json" =
      some (sortByKey (dictUpdate old0 new0)) ∧
    (∀ p, p ≠ "sub1/ASL/ASL.json" →
      writeFS fs0 "sub1/ASL/ASL.json" (sortByKey (dictUpdate old0 new0)) p =
        fs0 p) ∧
    (sortByKey (dictUpdate old0 new0)).Perm (dictUpdate old0 new0) ∧
    List.Pairwise (fun a b : String × String => a.1 ≤ b.1)
      (sortByKey (dictUpdate old0 new0)) ∧
    (∀ k, Dict.lookup (dictUpdate old0 new0) k =
      orElseO (batchGet new0 k) (Dict.lookup old0 k)) :=
  C5_update_json_writes_full_sorted new0 old0 fs0 "sub1/ASL/ASL.json"
    (by decide)

/-- **C6**: when the subject's `ASL/ASL.json` does not exist,
`load_json` fails with a message telling the user to run
`initial_processing()` first (and being a pure reader it creates no
file and returns no default); when the file exists it returns the
persisted mapping. -/
theorem C6_load_json_missing_is_fatal (subject_dir : String) (fs : FS) :
    (fs (jsonPath subject_dir) = none →
      load_json subject_dir fs = .error ("File " ++ jsonPath subject_dir ++
        " does not exist." ++ "Please run initial_processing() first.")) ∧
    (∀ d, fs (jsonPath subject_dir) = some d →
      load_json subject_dir fs = .ok d) := by
  constructor
  · intro h
    simp only [load_json, h]
  · intro d h
    simp only [load_json, h]

/-- Witness for C6: a missing ledger is fatal with the guidance
message; a present ledger is returned. -/
theorem C6_load_json_missing_is_fatal_witness :
    load_json "sub2" (fun _ => none) =
      .error ("File " ++ jsonPath "sub2" ++
        " does not exist." ++ "Please run initial_processing() first.") ∧
    load_json "sub2" (fun _ => some old0) = .ok old0 :=
  ⟨(C6_load_json_missing_is_fatal "sub2" (fun _ => none)).1 rfl,
    (C6_load_json_missing_is_fatal "sub2" (fun _ => some old0)).2 old0 rfl⟩

/-! ## Linear transform import with one rounding retry

`generate_asl2struct` (m0_mt_correction.py, lines 57-65) wraps
importing the bbregister FSL matrix in a `try`: on the RuntimeError
raised for a bottom row different from `[0,0,0,1]` it rewrites the
matrix file rounded to 5 decimal places and retries the import once,
outside any further `try`. -/

/-- A 4x4 matrix as stored in an FSL `.mat` file. -/
abbrev Mat4 := Matrix (Fin 4) (Fin 4) ℚ

/-- Modelled from the spec: `rt.Registration.from_flirt` (the
`regtricks` library is outside the repository sources) validates that
the bottom row of the imported matrix is `[0,0,0,1]`, raising
otherwise; the comment at m0_mt_correction.py line 60 names exactly
this condition. -/
def lastRowOK (M : Mat4) : Bool :=
  decide (M 3 0 = 0 ∧ M 3 1 = 0 ∧ M 3 2 = 0 ∧ M 3 3 = 1)

/-- Modelled from the spec: the import itself, failing exactly when
the bottom-row validation fails. -/
def from_flirt (M : Mat4) : Except String Mat4 :=
  if lastRowOK M then .ok M
  else .error "final row of FLIRT matrix must be 0 0 0 1"

/-- `np.savetxt(omat_path, arr, fmt='%.5f')` followed by
`np.loadtxt`: every entry rounded to 5 decimal places. -/
def round5 (x : ℚ) : ℚ := (⌊x * 100000 + 1/2⌋ : ℚ) / 100000

/-- The whole matrix file after the `%.5f` rewrite. -/
def roundMat5 (M : Mat4) : Mat4 := Matrix.of fun i j => round5 (M i j)

/-- The `try`/`except RuntimeError` of `generate_asl2struct`: import,
and on failure round once and re-import with no further handler.  The
first component records the matrices passed to `from_flirt`, in
order. -/
def generate_asl2struct_import (M : Mat4) :
    List Mat4 × Except String Mat4 :=
  match from_flirt M with
  | .ok reg => ([M], .ok reg)
  | .error _ => ([M, roundMat5 M], from_flirt (roundMat5 M))

/-- **C3**: when the bottom-row validation fails the import is retried
exactly once on the matrix rounded to 5 decimal places; a second
failure propagates as the final error, and no further rounding or
retry is ever attempted (at most two import attempts ever happen). -/
theorem C3_round_retry_once (M : Mat4) :
    (lastRowOK M = true →
      generate_asl2struct_import M = ([M], .ok M)) ∧
    (lastRowOK M = false →
      (generate_asl2struct_import M).1 = [M, roundMat5 M] ∧
      (generate_asl2struct_import M).2 = from_flirt (roundMat5 M) ∧
      (lastRowOK (roundMat5 M) = false →
        (generate_asl2struct_import M).2 =
          .error "final row of FLIRT matrix must be 0 0 0 1") ∧
      (lastRowOK (roundMat5 M) = true →
        (generate_asl2struct_import M).2 = .ok (roundMat5 M))) ∧
    (generate_asl2struct_import M).1.length ≤ 2 := by
  by_cases h : lastRowOK M = true
  · refine ⟨fun _ => ?_, (fun hfalse => by simp [hfalse] at h), ?_⟩
    · simp [generate_asl2struct_import, from_flirt, h]
    · simp [generate_asl2struct_import, from_flirt, h]
  · have hf : lastRowOK M = false := by
      cases hv : lastRowOK M
      · rfl
      · exact absurd hv h
    refine ⟨(fun ht => by simp [ht] at hf), fun _ => ?_, ?_⟩
    · refine ⟨?_, ?_, ?_, ?_⟩
      · simp [generate_asl2struct_import, from_flirt, hf]
      · simp [generate_asl2struct_import, from_flirt, hf]
      · intro h2
        simp [generate_asl2struct_import, from_flirt, hf, h2]
      · intro h2
        simp [generate_asl2struct_import, from_flirt, hf, h2]
    · simp [generate_asl2struct_import, from_flirt, hf]

/-- A well-formed FLIRT matrix: the identity. -/
def Mgood : Mat4 :=
  Matrix.of ![![1, 0, 0, 0], ![0, 1, 0, 0], ![0, 0, 1, 0], ![0, 0, 0, 1]]

/-- A malformed FLIRT matrix that rounding does not repair. -/
def Mbad : Mat4 :=
  Matrix.of ![![1, 0, 0, 0], ![0, 1, 0, 0], ![0, 0, 1, 0], ![0, 0, 0, 2]]

theorem roundMat5_Mbad : roundMat5 Mbad = Mbad := by
  funext i j
  fin_cases i <;> fin_cases j <;>
    norm_num [roundMat5, Mbad, round5, Matrix.cons_val_zero,
      Matrix.cons_val_one, Matrix.head_cons]

/-- Witness for C3: the identity matrix imports first try; a matrix
whose bottom-right entry is 2 fails, is retried once on its (here
unchanged) rounding, and the second failure is final. -/
theorem C3_round_retry_once_witness :
    generate_asl2struct_import Mgood = ([Mgood], .ok Mgood) ∧
    (generate_asl2struct_import Mbad).1 = [Mbad, roundMat5 Mbad] ∧
    (generate_asl2struct_import Mbad).2 =
      .error "final row of FLIRT matrix must be 0 0 0 1" := by
  refine ⟨(C3_round_retry_once Mgood).1 (by decide), ?_, ?_⟩
  · exact ((C3_round_retry_once Mbad).2.1 (by decide)).1
  · exact ((C3_round_retry_once Mbad).2.1 (by decide)).2.2.1
      (by rw [roundMat5_Mbad]; decide)

/-! ## The five-stage fabber fit driver

`do_basil` (analysis_on_surface.py lines 75-147) runs
`for iteration in range(5)`, building one `fabber_asl` command per
iteration and following each successful run with a `wb_command`
clamp; both invocations use `subprocess.run(..., check=True)`, which
raises on a non-zero exit status. -/

/-- `REPEATS` (analysis_on_surface.py line 10). -/
def REPEATS : List Nat := [6, 6, 6, 10, 15]

/-- `pathlib`'s `/` join. -/
def pathJoin (a b : String) : String := a ++ "/" ++ b

/-- The path arguments of `do_basil`. -/
structure BasilArgs where
  perf_name : String
  mean_name : String
  surf_name : String
  tiimg_name : String
  out_dir : String
  deriving DecidableEq

/-- One command-line argument of a `fabber_asl` invocation: one
constructor per option `do_basil` appends. -/
inductive FabberArg where
  | fabber_asl
  | surface (s : String)
  | model (s : String)
  | casl
  | save_mvn
  | overwrite
  | incart
  | inctiss
  | infertiss
  | incbat
  | inferbat
  | noise (s : String)
  | save_mean
  | tau (s : String)
  | bat (s : String)
  | batsd (s : String)
  | allow_bad_voxels
  | convergence (s : String)
  | data_order (s : String)
  | disp (s : String)
  | exch (s : String)
  | max_iterations (n : Nat)
  | max_trials (n : Nat)
  | tiimg (s : String)
  | data (s : String)
  | inferart
  | output (s : String)
  | continue_from_mvn (s : String)
  | rpt (n : Nat) (r : Nat)
  | method (s : String)
  deriving DecidableEq

/-- `base_command` (lines 78-103). -/
def base_command (a : BasilArgs) : List FabberArg :=
  [.fabber_asl, .surface a.surf_name, .model "aslrest", .casl, .save_mvn,
    .overwrite, .incart, .inctiss, .infertiss, .incbat, .inferbat,
    .noise "white", .save_mean, .tau "1.5", .bat "1.3", .batsd "1.0",
    .allow_bad_voxels, .convergence "trialmode", .data_order "singlefile",
    .disp "none", .exch "mix", .max_iterations 20, .max_trials 10,
    .tiimg a.tiimg_name]

/-- `out_dir / f'fabber_{iteration}'`. -/
def temp_out (a : BasilArgs) (iteration : Nat) : String :=
  pathJoin a.out_dir ("fabber_" ++ toString iteration)

/-- `temp_out.parent / f'fabber_{iteration - 1}/finalMVN.nii.gz'`:
the previous stage's saved posterior. -/
def mvnPath (a : BasilArgs) (iteration : Nat) : String :=
  pathJoin a.out_dir
    ("fabber_" ++ toString (iteration - 1) ++ "/finalMVN.nii.gz")

/-- The iteration-specific command (lines 105-132). -/
def it_command (a : BasilArgs) (iteration : Nat) : List FabberArg :=
  let c1 := base_command a
  let data := if iteration = 0 ∨ iteration = 1 then a.mean_name
    else a.perf_name
  let c2 := c1 ++ [.data data]
  let c3 := if iteration = 1 ∨ iteration = 3 then c2 ++ [.inferart] else c2
  let c4 := c3 ++ [.output (temp_out a iteration)]
  let c5 := if iteration ≠ 0 then
      c4 ++ [.continue_from_mvn (mvnPath a iteration)]
    else c4
  let c6 := if 2 ≤ iteration then
      c5 ++ REPEATS.enum.map (fun p => .rpt (p.1 + 1) p.2)
    else c5
  let method := if iteration < 4 then "vb" else "spatialvb"
  c6 ++ [.method method]

/-- `temp_out / 'mean_ftiss.func.gii'`. -/
def ftiss_name (a : BasilArgs) (iteration : Nat) : String :=
  pathJoin (temp_out a iteration) "mean_ftiss.func.gii"

/-- The `wb_command` clamp (lines 139-145): rewrite the metric with
`max(x, 0)`, reading and writing the very same file. -/
def wb_threshold_cmd (f : String) : List String :=
  ["wb_command", "-metric-math", "max(x, 0)", f, "-var", "x", f]

/-- Modelled from the spec: the voxelwise function the external
`wb_command -metric-math "max(x, 0)"` invocation applies. -/
def metric_math_max0 (x : ℚ) : ℚ := max x 0

/-- One external invocation made by `do_basil`, tagged with the loop
index it was made at. -/
inductive BasilEvent where
  | fabber (iteration : Nat) (cmd : List FabberArg)
  | threshold (iteration : Nat) (cmd : List String)
  deriving DecidableEq

/-- The exit statuses the two external tools return at each
iteration. -/
structure ExitCodes where
  fabber : Nat → Nat
  wb : Nat → Nat

/-- One loop iteration: run `fabber_asl` (`check=True` raises on a
non-zero status, so a failure ends the loop before the clamp), then
the `wb_command` clamp, likewise checked. -/
def runStage (a : BasilArgs) (ec : ExitCodes) (iteration : Nat) :
    List BasilEvent × Bool :=
  if ec.fabber iteration = 0 then
    (if ec.wb iteration = 0 then
      ([.fabber iteration (it_command a iteration),
        .threshold iteration (wb_threshold_cmd (ftiss_name a iteration))],
        true)
    else
      ([.fabber iteration (it_command a iteration),
        .threshold iteration (wb_threshold_cmd (ftiss_name a iteration))],
        false))
  else ([.fabber iteration (it_command a iteration)], false)

/-- Process the loop indices in order until a stage fails. -/
def runStages (a : BasilArgs) (ec : ExitCodes) :
    List Nat → List BasilEvent × Bool
  | [] => ([], true)
  | i :: rest =>
      let s := runStage a ec i
      if s.2 then
        let r := runStages a ec rest
        (s.1 ++ r.1, r.2)
      else (s.1, false)

/-- `do_basil`: the trace of external invocations of
`for iteration in range(5)`, and whether it ran to completion. -/
def do_basil (a : BasilArgs) (ec : ExitCodes) : List BasilEvent × Bool :=
  runStages a ec [0, 1, 2, 3, 4]

/-- The fabber stage indices of a trace, in invocation order. -/
def fabberStages : List BasilEvent → List Nat
  | [] => []
  | .fabber i _ :: rest => i :: fabberStages rest
  | .threshold _ _ :: rest => fabberStages rest

/-- **C1**: `do_basil` invokes the fit stages strictly in order
0,1,2,3,4 (a failure-free run invokes exactly them, in that order);
every stage i ≥ 1 is passed stage i-1's saved posterior
`fabber_{i-1}/finalMVN.nii.gz` as its `--continue-from-mvn` warm
start (and stage 0 gets no warm start); and if the external
invocation of some stage k exits non-zero after all earlier stages
succeeded, the driver raises at once: exactly stages 0..k were
invoked and no later stage ever is. -/
theorem C1_stage_order_warmstart_abort (a : BasilArgs) (ec : ExitCodes) :
    ((∀ i, ec.fabber i = 0 ∧ ec.wb i = 0) →
      fabberStages (do_basil a ec).1 = [0, 1, 2, 3, 4] ∧
        (do_basil a ec).2 = true) ∧
    (∀ i, 1 ≤ i → i ≤ 4 →
      FabberArg.continue_from_mvn
          (pathJoin a.out_dir
            ("fabber_" ++ toString (i - 1) ++ "/finalMVN.nii.gz"))
        ∈ it_command a i) ∧
    (∀ s, FabberArg.continue_from_mvn s ∉ it_command a 0) ∧
    (∀ k, k < 5 → (∀ j, j < k → ec.fabber j = 0 ∧ ec.wb j = 0) →
      ec.fabber k ≠ 0 →
      fabberStages (do_basil a ec).1 = List.range (k + 1) ∧
        (do_basil a ec).2 = false) := by
  refine ⟨?_, ?_, ?_, ?_⟩
  · intro h
    have h0 := h 0
    have h1 := h 1
    have h2 := h 2
    have h3 := h 3
    have h4 := h 4
    simp [do_basil, runStages, runStage, h0.1, h0.2, h1.1, h1.2, h2.1,
      h2.2, h3.1, h3.2, h4.1, h4.2, fabberStages]
  · intro i h1 h4
    interval_cases i <;>
      simp [it_command, base_command, mvnPath]
  · intro s
    simp [it_command, base_command]
  · intro k hk hprev hfail
    interval_cases k
    · simp [do_basil, runStages, runStage, hfail, fabberStages,
        List.range_succ]
    · have p0 := hprev 0 (by norm_num)
      simp [do_basil, runStages, runStage, p0.1, p0.2, hfail,
        fabberStages, List.range_succ]
    · have p0 := hprev 0 (by norm_num)
      have p1 := hprev 1 (by norm_num)
      simp [do_basil, runStages, runStage, p0.1, p0.2, p1.1, p1.2,
        hfail, fabberStages, List.range_succ]
    · have p0 := hprev 0 (by norm_num)
      have p1 := hprev 1 (by norm_num)
      have p2 := hprev 2 (by norm_num)
      simp [do_basil, runStages, runStage, p0.1, p0.2, p1.1, p1.2,
        p2.1, p2.2, hfail, fabberStages, List.range_succ]
    · have p0 := hprev 0 (by norm_num)
      have p1 := hprev 1 (by norm_num)
      have p2 := hprev 2 (by norm_num)
      have p3 := hprev 3 (by norm_num)
      simp [do_basil, runStages, runStage, p0.1, p0.2, p1.1, p1.2,
        p2.1, p2.2, p3.1, p3.2, hfail, fabberStages, List.range_succ]

/-- Concrete driver arguments for the witnesses. -/
def a0 : BasilArgs :=
  { perf_name := "L_beta_perf.func.gii"
    mean_name := "L_beta_perf_mean.func.gii"
    surf_name := "L_mid.surf.gii"
    tiimg_name := "L_timing.func.gii"
    out_dir := "L_basil" }

/-- All external invocations succeed. -/
def ec0 : ExitCodes := { fabber := fun _ => 0, wb := fun _ => 0 }

/-- The stage-2 estimator exits with status 1. -/
def ecFail2 : ExitCodes :=
  { fabber := fun i => if i = 2 then 1 else 0, wb := fun _ => 0 }

/-- Witness for C1: with a non-zero exit at stage 2 only stages 0,1,2
run and the driver fails; stage 3's command carries stage 2's
posterior path. -/
theorem C1_stage_order_warmstart_abort_witness :
    (fabberStages (do_basil a0 ecFail2).1 = List.range (2 + 1) ∧
      (do_basil a0 ecFail2).2 = false) ∧
    (fabberStages (do_basil a0 ec0).1 = [0, 1, 2, 3, 4] ∧
      (do_basil a0 ec0).2 = true) ∧
    FabberArg.continue_from_mvn
        (pathJoin a0.out_dir
          ("fabber_" ++ toString (3 - 1) ++ "/finalMVN.nii.gz"))
      ∈ it_command a0 3 :=
  ⟨(C1_stage_order_warmstart_abort a0 ecFail2).2.2.2 2 (by norm_num)
      (by decide) (by decide),
    (C1_stage_order_warmstart_abort a0 ec0).1 (fun _ => ⟨rfl, rfl⟩),
    (C1_stage_order_warmstart_abort a0 ec0).2.1 3 (by norm_num)
      (by norm_num)⟩

/-- Recognise the `--data=...` argument. -/
def isDataArg : FabberArg → Bool
  | .data _ => true
  | _ => false

theorem REPEATS_enum :
    REPEATS.enum = [(0, 6), (1, 6), (2, 6), (3, 10), (4, 15)] := rfl

/-- **C7**: stages 0 and 1 fit the mean-of-repeats file and stages
2,3,4 the full repeated series (each command carries exactly one
`--data` argument); the per-TI repeat counts `--rpt1..--rpt5` are
supplied exactly for stages ≥ 2; and spatial regularization
(`--method=spatialvb`) is enabled only at stage 4, all earlier stages
using the non-spatial `vb` method. -/
theorem C7_stage_data_rpts_method (a : BasilArgs) :
    (∀ i, i < 5 → (it_command a i).countP isDataArg = 1) ∧
    (∀ i, i < 2 → FabberArg.data a.mean_name ∈ it_command a i) ∧
    (∀ i, 2 ≤ i → i < 5 → FabberArg.data a.perf_name ∈ it_command a i) ∧
    (∀ i, i < 5 → ∀ n r, (FabberArg.rpt n r ∈ it_command a i ↔
      (2 ≤ i ∧ (n, r) ∈ [(1, 6), (2, 6), (3, 6), (4, 10), (5, 15)]))) ∧
    (∀ i, i < 5 →
      (FabberArg.method "spatialvb" ∈ it_command a i ↔ i = 4)) ∧
    (∀ i, i < 5 → (FabberArg.method "vb" ∈ it_command a i ↔ i < 4)) := by
  refine ⟨?_, ?_, ?_, ?_, ?_, ?_⟩
  · intro i hi
    interval_cases i <;> rfl
  · intro i hi
    interval_cases i <;> simp [it_command, base_command]
  · intro i h2 hi
    interval_cases i <;> simp [it_command, base_command]
  · intro i hi
    interval_cases i <;> intro n r <;>
      simp [it_command, base_command, REPEATS_enum]
  · intro i hi
    interval_cases i <;> simp [it_command, base_command]
  · intro i hi
    interval_cases i <;> simp [it_command, base_command]

/-- Witness for C7 at concrete arguments and stages. -/
theorem C7_stage_data_rpts_method_witness :
    (it_command a0 0).countP isDataArg = 1 ∧
    FabberArg.data a0.mean_name ∈ it_command a0 1 ∧
    FabberArg.data a0.perf_name ∈ it_command a0 2 ∧
    FabberArg.rpt 4 10 ∈ it_command a0 2 ∧
    FabberArg.method "spatialvb" ∈ it_command a0 4 ∧
    FabberArg.method "vb" ∈ it_command a0 2 :=
  ⟨(C7_stage_data_rpts_method a0).1 0 (by norm_num),
    (C7_stage_data_rpts_method a0).2.1 1 (by norm_num),
    (C7_stage_data_rpts_method a0).2.2.1 2 (by norm_num) (by norm_num),
    ((C7_stage_data_rpts_method a0).2.2.2.1 2 (by norm_num) 4 10).mpr
      (by simp),
    ((C7_stage_data_rpts_method a0).2.2.2.2.1 4 (by norm_num)).mpr rfl,
    ((C7_stage_data_rpts_method a0).2.2.2.2.2 2 (by norm_num)).mpr
      (by norm_num)⟩

/-- **C8**: in a failure-free run, each of the five stages' completed
external fits is followed immediately by exactly one clamp of that
stage's `mean_ftiss.func.gii` output; the clamp command writes
`max(x, 0)` of the file back over the same file (in place), and the
clamped function sends every negative value to zero and keeps every
non-negative value. -/
theorem C8_threshold_after_each_stage (a : BasilArgs) (ec : ExitCodes)
    (h : ∀ i, ec.fabber i = 0 ∧ ec.wb i = 0) :
    (do_basil a ec).1 =
      [.fabber 0 (it_command a 0),
        .threshold 0 (wb_threshold_cmd (ftiss_name a 0)),
        .fabber 1 (it_command a 1),
        .threshold 1 (wb_threshold_cmd (ftiss_name a 1)),
        .fabber 2 (it_command a 2),
        .threshold 2 (wb_threshold_cmd (ftiss_name a 2)),
        .fabber 3 (it_command a 3),
        .threshold 3 (wb_threshold_cmd (ftiss_name a 3)),
        .fabber 4 (it_command a 4),
        .threshold 4 (wb_threshold_cmd (ftiss_name a 4))] ∧
    (∀ f, wb_threshold_cmd f =
      ["wb_command", "-metric-math", "max(x, 0)", f, "-var", "x", f]) ∧
    (∀ x : ℚ, (x < 0 → metric_math_max0 x = 0) ∧
      (0 ≤ x → metric_math_max0 x = x)) := by
  refine ⟨?_, fun f => rfl, fun x => ⟨fun hx => ?_, fun hx => ?_⟩⟩
  · have h0 := h 0
    have h1 := h 1
    have h2 := h 2
    have h3 := h 3
    have h4 := h 4
    simp [do_basil, runStages, runStage, h0.1, h0.2, h1.1, h1.2, h2.1,
      h2.2, h3.1, h3.2, h4.1, h4.2]
  · exact max_eq_right hx.le
  · exact max_eq_left hx

/-- Witness for C8: the failure-free trace at concrete arguments. -/
theorem C8_threshold_after_each_stage_witness :
    (do_basil a0 ec0).1 =
      [.fabber 0 (it_command a0 0),
        .threshold 0 (wb_threshold_cmd (ftiss_name a0 0)),
        .fabber 1 (it_command a0 1),
        .threshold 1 (wb_threshold_cmd (ftiss_name a0 1)),
        .fabber 2 (it_command a0 2),
        .threshold 2 (wb_threshold_cmd (ftiss_name a0 2)),
        .fabber 3 (it_command a0 3),
        .threshold 3 (wb_threshold_cmd (ftiss_name a0 3)),
        .fabber 4 (it_command a0 4),
        .threshold 4 (wb_threshold_cmd (ftiss_name a0 4))] ∧
    (∀ f, wb_threshold_cmd f =
      ["wb_command", "-metric-math", "max(x, 0)", f, "-var", "x", f]) ∧
    (∀ x : ℚ, (x < 0 → metric_math_max0 x = 0) ∧
      (0 ≤ x → metric_math_max0 x = x)) :=
  C8_threshold_after_each_stage a0 ec0 (fun _ => ⟨rfl, rfl⟩)

/-! ## Transform chains

The geometric transform algebra lives in the external `regtricks`
library; the repository scripts only call `rt.chain(...)` and
`.inverse()` (distcorr_warps.py lines 285-288 and 330-335).  The
algebra is therefore modelled from the specification. -/

/-- Modelled from the spec: a TransformChain of Linear (4x4 affine
world-to-world) transforms, applied first-to-last. -/
abbrev TransformChain := List Mat4

/-- Modelled from the spec: `rt.chain(A, B)` — apply A's mapping,
then B's. -/
def chain (A B : TransformChain) : TransformChain := A ++ B

/-- Inverse of a 4x4 rational matrix by the adjugate formula. -/
def matInv (M : Mat4) : Mat4 := M.det⁻¹ • M.adjugate

/-- Modelled from the spec: `.inverse()` reverses the chain and
inverts each element. -/
def invert (c : TransformChain) : TransformChain := (c.map matInv).reverse

/-- Modelled from the spec: the world-coordinate mapping of a chain,
each transform acting on homogeneous coordinates in order. -/
def applyChain (c : TransformChain) (p : Fin 4 → ℚ) : Fin 4 → ℚ :=
  c.foldl (fun q M => M.mulVec q) p

/-- **C2**: inverting the composition `chain(A, B)` yields the
composition of the inverses in reversed order,
`chain(invert(B), invert(A))` — the two chains are equal outright,
hence produce the same mapping at every world coordinate (exact
equality, so in particular within any floating-point tolerance). -/
theorem C2_invert_of_chain (A B : TransformChain) :
    invert (chain A B) = chain (invert B) (invert A) ∧
    ∀ p : Fin 4 → ℚ,
      applyChain (invert (chain A B)) p =
        applyChain (chain (invert B) (invert A)) p := by
  have h : invert (chain A B) = chain (invert B) (invert A) := by
    unfold invert chain
    rw [List.map_append, List.reverse_append]
  exact ⟨h, fun p => by rw [h]⟩

/-! ## oxford_asl path construction -/

/-- Python f-string formatting of an `Optional[str]`: `None`
interpolates as the literal string "None". -/
def pyFormat : Option String → String
  | none => "None"
  | some s => s

/-- The paths `run_oxford_asl` (asl_perfusion.py lines 7-23) derives
below the subject's `structasl` directory. -/
structure OxfordPaths where
  oxford_dir : String
  pvgm_name : String
  pvwm_name : String
  calib_name : String
  brain_mask : String
  deriving DecidableEq

/-- `run_oxford_asl`: `ext` is `"_nobc"` when `nobc` is set and
Python `None` otherwise, and every derived path interpolates `ext`
into an f-string. -/
def run_oxford_asl_paths (structasl : String) (nobc : Bool) :
    OxfordPaths :=
  let ext := if nobc then some "_nobc" else none
  { oxford_dir := pathJoin structasl ("TIs" ++ pyFormat ext ++ "/OxfordASL")
    pvgm_name :=
      pathJoin structasl ("PVEs" ++ pyFormat ext ++ "/pve_GM.nii.gz")
    pvwm_name :=
      pathJoin structasl ("PVEs" ++ pyFormat ext ++ "/pve_WM.nii.gz")
    calib_name := pathJoin structasl
      ("Calib/Calib0/DistCorr" ++ pyFormat ext ++ "/calib0_dcorr.nii.gz")
    brain_mask := pathJoin structasl
      ("reg" ++ pyFormat ext ++
        "/ASL_grid_T1w_acpc_dc_restore_brain_mask.nii.gz") }

/-- **C10**: with `nobc=False` (the default) every derived path
embeds the literal substring "None" rather than the unsuffixed
directory name; only `nobc=True` produces the `_nobc` names. -/
theorem C10_none_suffix_paths (structasl : String) :
    (run_oxford_asl_paths structasl false).oxford_dir =
      pathJoin structasl "TIsNone/OxfordASL" ∧
    (run_oxford_asl_paths structasl false).pvgm_name =
      pathJoin structasl "PVEsNone/pve_GM.nii.gz" ∧
    (run_oxford_asl_paths structasl false).pvwm_name =
      pathJoin structasl "PVEsNone/pve_WM.nii.gz" ∧
    (run_oxford_asl_paths structasl false).calib_name =
      pathJoin structasl "Calib/Calib0/DistCorrNone/calib0_dcorr.nii.gz" ∧
    (run_oxford_asl_paths structasl false).brain_mask =
      pathJoin structasl
        "regNone/ASL_grid_T1w_acpc_dc_restore_brain_mask.nii.gz" ∧
    (run_oxford_asl_paths structasl true).oxford_dir =
      pathJoin structasl "TIs_nobc/OxfordASL" ∧
    (run_oxford_asl_paths structasl true).pvgm_name =
      pathJoin structasl "PVEs_nobc/pve_GM.nii.gz" ∧
    (run_oxford_asl_paths structasl true).calib_name =
      pathJoin structasl "Calib/Calib0/DistCorr_nobc/calib0_dcorr.nii.gz" :=
  ⟨rfl, rfl, rfl, rfl, rfl, rfl, rfl, rfl⟩

/-! ## Re-entrancy guards of the correction stages

Both preparation scripts guard most of their output-producing stages
with `if (not op.exists(output) or force_refresh) and <condition>:`,
and both hard-code `force_refresh = True` (distcorr_warps.py line
222, prepare_t1asl_space.py line 111). -/

/-- distcorr_warps.py line 222. -/
def force_refresh_distcorr : Bool := true

/-- prepare_t1asl_space.py line 111. -/
def force_refresh_prepare : Bool := true

/-- The target-space condition conjoined into a stage's guard. -/
inductive GuardCond where
  | targetEq (t : String)
  | always
  deriving DecidableEq

/-- Evaluate the target condition. -/
def condHolds : GuardCond → String → Bool
  | .targetEq t, target => target == t
  | .always, _ => true

/-- One output-producing correction stage of the two scripts: its
output file, whether its guard consults `op.exists` on that output,
its target condition, and whether it additionally requires the
`use_t1` flag or the banding-correction branch. -/
structure CorrectionStage where
  output : String
  has_exists_check : Bool
  cond : GuardCond
  requires_use_t1 : Bool
  requires_bandingcorr : Bool
  deriving DecidableEq

/-- Whether the stage body runs, as a function of the script's
`force_refresh` constant, whether the output already exists, the
`target` argument, and the `use_t1` / `nobandingcorr` flags. -/
def recomputeStage (s : CorrectionStage) (force_refresh exists_out : Bool)
    (target : String) (use_t1 nobandingcorr : Bool) : Bool :=
  (!s.has_exists_check || !exists_out || force_refresh) &&
    condHolds s.cond target &&
    (!s.requires_use_t1 || use_t1) &&
    (!s.requires_bandingcorr || !nobandingcorr)

/-- The `fmapmag_aslstruct.nii.gz` stage (distcorr_warps.py lines
372-380): written under `if target=='structural':` with no existence
check. -/
def fmap_struct_stage : CorrectionStage :=
  ⟨"fmap_struct_reg/fmapmag_aslstruct.nii.gz", false,
    .targetEq "structural", false, false⟩

/-- The output-producing stages of distcorr_warps.py main, in program
order (guards at lines 247, 253, 266, 323, 339, 351, 363, 373, 384,
397, 402, 412, 428). -/
def distcorr_stages : List CorrectionStage :=
  [⟨"tis_vol1.nii.gz", true, .targetEq "asl", false, false⟩,
    ⟨"reg/ASL_grid_T1w_acpc_dc_restore.nii.gz", true,
      .targetEq "asl", false, false⟩,
    ⟨"reg/ASL_grid_T1w_acpc_dc_restore_brain_mask.nii.gz", true,
      .targetEq "asl", false, false⟩,
    ⟨"reg/asl2struct.mat", true, .targetEq "structural", false, false⟩,
    ⟨"reg/asl_vol1_mask_init.nii.gz", true, .targetEq "asl", false, false⟩,
    ⟨"tis_distcorr.nii.gz", true, .targetEq "structural", false, false⟩,
    ⟨"calib0_dcorr.nii.gz", true, .targetEq "structural", false, false⟩,
    fmap_struct_stage,
    ⟨"reg/mean_T1t_filt.nii.gz", true, .targetEq "structural",
      true, false⟩,
    ⟨"ASL/TIs/timing_img.nii.gz", true, .targetEq "asl", false, false⟩,
    ⟨"ASLT1w/timing_img.nii.gz", true, .targetEq "structural",
      false, false⟩,
    ⟨"mt_scaling_factors_calibstruct.nii.gz", true,
      .targetEq "structural", false, true⟩,
    ⟨"combined_scaling_factors.nii.gz", true, .targetEq "structural",
      false, false⟩]

/-- The output-producing stages of prepare_t1asl_space.py main
(guards at lines 124, 135, 142; no target argument). -/
def prepare_stages : List CorrectionStage :=
  [⟨"reg/ASL_grid_T1w_acpc_dc_restore.nii.gz", true, .always,
      false, false⟩,
    ⟨"PVEs/vent_csf_mask.nii.gz", true, .always, false, false⟩,
    ⟨"T1w/ASL/PVEs/pve_GM.nii.gz", true, .always, false, false⟩]

/-- The claim as stated: every correction stage consults its output's
existence, and (with the `force_refresh` override disabled) skips
recomputation whenever the output exists. -/
def C9_as_stated : Prop :=
  ∀ s ∈ distcorr_stages ++ prepare_stages,
    s.has_exists_check = true ∧
    ∀ t u b, recomputeStage s false true t u b = false

/-- **C9** counterexample: the fieldmap-to-structural application is
a correction stage with no existence check at all — it recomputes
over an existing output even with `force_refresh` disabled — so the
claim as stated is false. -/
theorem C9_every_stage_checks_counterexample :
    fmap_struct_stage ∈ distcorr_stages ++ prepare_stages ∧
    fmap_struct_stage.has_exists_check = false ∧
    recomputeStage fmap_struct_stage false true "structural" false false =
      true ∧
    ¬ C9_as_stated := by
  refine ⟨by decide, rfl, rfl, fun h => ?_⟩
  exact absurd (h fmap_struct_stage (by decide)).1 (by decide)

/-- **C9** (amended): every correction stage of the two scripts
*except* the fieldmap-to-structural application (which recomputes
unconditionally whenever `target=='structural'`) checks its output's
existence, and with `force_refresh` disabled would skip recomputation
when the output exists; with `force_refresh` enabled the guard
ignores existence entirely; and both scripts hard-code
`force_refresh = True`, so as shipped every stage whose condition
holds recomputes. -/
theorem C9_guards_amended :
    (∀ s ∈ distcorr_stages ++ prepare_stages, s ≠ fmap_struct_stage →
      s.has_exists_check = true ∧
      ∀ t u b, recomputeStage s false true t u b = false) ∧
    (∀ s ∈ distcorr_stages ++ prepare_stages, ∀ e t u b,
      recomputeStage s true e t u b = recomputeStage s true true t u b) ∧
    force_refresh_distcorr = true ∧ force_refresh_prepare = true := by
  refine ⟨?_, ?_, rfl, rfl⟩
  · intro s hs hne
    fin_cases hs <;>
      first
        | exact absurd rfl hne
        | exact ⟨rfl, fun t u b => rfl⟩
  · intro s hs e t u b
    fin_cases hs <;> cases e <;> rfl

/-- Witness for the amended C9 at concrete stages. -/
theorem C9_guards_amended_witness :
    ((⟨"tis_vol1.nii.gz", true, .targetEq "asl", false, false⟩ :
        CorrectionStage).has_exists_check = true ∧
      recomputeStage
        ⟨"tis_vol1.nii.gz", true, .targetEq "asl", false, false⟩
        false true "asl" false false = false) ∧
    recomputeStage fmap_struct_stage true false "structural" false false =
      recomputeStage fmap_struct_stage true true "structural" false false := by
  have h := C9_guards_amended
  exact ⟨⟨(h.1 _ (by decide) (by decide)).1,
      (h.1 _ (by decide) (by decide)).2 "asl" false false⟩,
    h.2.1 fmap_struct_stage (by decide) false "structural" false false⟩

end HcpAsl
